import Mathlib

/-!
Shallow embedding of the chat-to-video rendering engine of
`src/tools/yt-chat-to-video/yt-chat-to-video.py`, together with theorems
settling the behavioural claims about it.  Python machine values are
modelled exactly: `int(...)` on a rational is truncation toward zero,
`round(...)` is round-half-to-even, and the script's float arithmetic on
small decimal quantities is modelled over `ℚ`.
-/

namespace ChatVideo

/-- Python `int(q)` on a real quantity: truncation toward zero. -/
def pyInt (q : ℚ) : ℤ := if 0 ≤ q then ⌊q⌋ else ⌈q⌉

/-- Python 3 `round(q)`: round half to even (banker's rounding). -/
def pyRound (q : ℚ) : ℤ :=
  if q - (⌊q⌋ : ℚ) < 1 / 2 then ⌊q⌋
  else if q - (⌊q⌋ : ℚ) > 1 / 2 then ⌊q⌋ + 1
  else if ⌊q⌋ % 2 = 0 then ⌊q⌋ else ⌊q⌋ + 1

/-- JSON-like values: the dynamic data the script reads with `json.loads`.
Objects keep their key/value pairs in order; keys are unique in real JSON
and lookups return the first match. -/
inductive Json where
  | null : Json
  | bool : Bool → Json
  | num : ℤ → Json
  | str : String → Json
  | arr : List Json → Json
  | obj : List (String × Json) → Json

/-- Python `d.get(k)` / `d[k]` on a dict, `None`-ish on anything else. -/
def Json.lookupKey : Json → String → Option Json
  | .obj kvs, k => kvs.lookup k
  | _, _ => none

/-- Python `k in d` (dict membership; `False` on non-dicts here because the
script always guards with `isinstance(..., dict)` first). -/
def Json.hasKey (j : Json) (k : String) : Bool := (j.lookupKey k).isSome

/-- Python `isinstance(v, dict)`. -/
def Json.isObj : Json → Bool
  | .obj _ => true
  | _ => false

/-- Python `int(v)` applied to a JSON scalar: numbers pass through, numeric
strings are parsed, booleans coerce to 0/1, anything else raises (modelled
as `none`). -/
def jsonToInt : Json → Option ℤ
  | .num n => some n
  | .str s => s.toInt?
  | .bool b => some (if b then 1 else 0)
  | _ => none

/-! ## Action Normalizer (`_load_chat_actions`, lines 68-107)

`json.loads` is external library code; it is abstracted as a parameter
`parse : String → Option Json` (`none` models a raised parse error).  The
function body below mirrors the source's strategy order exactly. -/

/-- Line splitting of the raw transcript (`raw.splitlines()`). -/
def splitLines (s : String) : List String := s.splitOn "\n"

/-- Case A test of `_load_chat_actions`:
`isinstance(data, dict) and 'actions' in data and isinstance(data['actions'], list)`. -/
def actionsList (j : Json) : Option (List Json) :=
  match j.lookupKey "actions" with
  | some (.arr l) => some l
  | _ => none

/-- Wrapper-key test of `_load_chat_actions`:
`'replayChatItemAction' in data or 'addChatItemAction' in data`. -/
def isSingleAction (j : Json) : Bool :=
  j.hasKey "replayChatItemAction" || j.hasKey "addChatItemAction"

/-- JSONL fallback of `_load_chat_actions` (lines 96-107): strip each line,
skip blanks, parse each remaining line independently, silently dropping
lines that fail to parse. -/
def jsonlFallback (parse : String → Option Json) (ls : List String) : List Json :=
  ls.filterMap (fun line => if line.trim = "" then none else parse line.trim)

/-- `_load_chat_actions` (lines 68-107): whole-input parse first (actions
object, then single recognized action, then bare list), otherwise the
line-delimited fallback.  A whole-input parse that yields none of the three
accepted shapes raises and is caught, also landing in the fallback. -/
def loadChatActions (parse : String → Option Json) (raw : String) : List Json :=
  match parse raw with
  | some d =>
    match actionsList d with
    | some l => l
    | none =>
      if isSingleAction d then [d]
      else
        match d with
        | .arr l => l
        | _ => jsonlFallback parse (splitLines raw)
  | none => jsonlFallback parse (splitLines raw)

/-! ## Message Extractor (`_extract_renderer_and_times`, lines 12-65, and the
message loop lines 217-262)

Attribute accesses that would raise in Python on a wrapper of the wrong
runtime type (and thereby crash the whole run, producing no messages) are
modelled as absent fields, which likewise produce no message. -/

/-- Preferred renderer kinds of `pick_renderer_from_item` (lines 21-28). -/
def preferredRendererKeys : List String :=
  ["liveChatTextMessageRenderer",
   "liveChatPaidMessageRenderer",
   "liveChatMembershipItemRenderer",
   "liveChatPaidStickerRenderer",
   "liveChatViewerEngagementMessageRenderer",
   "liveChatLegacyPaidMessageRenderer"]

/-- `pick_renderer_from_item` (lines 17-37): first preferred renderer that
carries a timestamp, else the first dict value with `timestampUsec`. -/
def pickRendererFromItem (item : Json) : Option Json :=
  match item with
  | .obj kvs =>
    match preferredRendererKeys.findSome? (fun k =>
        match kvs.lookup k with
        | some r =>
          if r.isObj && (r.hasKey "timestampUsec" || r.hasKey "timestampText") then some r
          else none
        | none => none) with
    | some r => some r
    | none => (kvs.map Prod.snd).find? (fun v => v.isObj && v.hasKey "timestampUsec")
  | _ => none

/-- Renderer timestamp read (lines 53 and 62):
`int(renderer.get('timestampUsec')) if 'timestampUsec' in renderer else None`. -/
def rendererTsUsec (renderer : Json) : Option ℤ :=
  match renderer.lookupKey "timestampUsec" with
  | some v => jsonToInt v
  | none => none

/-- `_extract_renderer_and_times` (lines 40-65): returns
`(renderer, ts_usec, offset_ms)`.  The replay wrapper reads
`videoOffsetTimeMsec` with `int(...)` inside try/except defaulting to 0,
then scans `actions` for the first `addChatItemAction` item yielding a
renderer; the live wrapper has no offset. -/
def extractRendererAndTimes (j : Json) : Option Json × Option ℤ × Option ℤ :=
  match j.lookupKey "replayChatItemAction" with
  | some r =>
    let offsetMs : ℤ :=
      match r.lookupKey "videoOffsetTimeMsec" with
      | some v => (jsonToInt v).getD 0
      | none => 0
    let acts : List Json :=
      match r.lookupKey "actions" with
      | some (.arr l) => l
      | _ => []
    match acts.findSome? (fun act =>
        match act.lookupKey "addChatItemAction" with
        | some add =>
          if add.isObj then pickRendererFromItem ((add.lookupKey "item").getD (.obj []))
          else none
        | none => none) with
    | some renderer => (some renderer, rendererTsUsec renderer, some offsetMs)
    | none => (none, none, some offsetMs)
  | none =>
    match j.lookupKey "addChatItemAction" with
    | some add =>
      match pickRendererFromItem ((add.lookupKey "item").getD (.obj [])) with
      | some renderer => (some renderer, rendererTsUsec renderer, none)
      | none => (none, none, none)
    | none => (none, none, none)

/-- Per-message `time_ms` computation (lines 223-228): an explicit replay
offset is used directly; else a microsecond timestamp is turned into a
clamped millisecond offset from the transcript's first timestamp
(`max(0, int((ts_usec - first_ts_usec) / 1000))`, with Python `int` of the
float quotient truncating toward zero); else no usable timing. -/
def computeTimeMs (firstTsUsec tsUsec offsetMs : Option ℤ) : Option ℤ :=
  match offsetMs with
  | some o => some o
  | none =>
    match tsUsec, firstTsUsec with
    | some t, some f => some (max 0 ((t - f).tdiv 1000))
    | _, _ => none

/-! ## Window filter and empty-messages guard (lines 231-232 and 264-267) -/

/-- Time-window filter (lines 231-232): a message is kept unless a nonzero
end time was requested and `time_ms > int(end_time_seconds * 1000)`. -/
def windowKeep (endS : ℚ) (timeMs : ℤ) : Bool :=
  !(decide (endS ≠ 0) && decide (timeMs > pyInt (endS * 1000)))

/-- The extraction loop's window filtering over a list of message times. -/
def filterWindow (endS : ℚ) (ts : List ℤ) : List ℤ := ts.filter (windowKeep endS)

/-- Fatal message of line 266. -/
def windowEmptyMsg : String := "Error: No messages within selected time window"

/-- Fatal message of line 267. -/
def fileEmptyMsg : String := "Error: No messages found in the chat file"

/-- Empty-messages guard (lines 264-267): if no messages survive, fail with
the window-empty message when a nonzero end time was requested, else with
the file-empty message. -/
def checkNonempty (endS : ℚ) (ts : List ℤ) : Except String (List ℤ) :=
  if ts.isEmpty then .error (if endS ≠ 0 then windowEmptyMsg else fileEmptyMsg)
  else .ok ts

/-! ## Timeline Builder (lines 269-295)

Only the `time_ms` component of each message matters here; the builder is
modelled on the list of message times.  The script's float arithmetic on
seconds is modelled exactly over `ℚ`. -/

/-- `messages.sort(key=lambda m: m[0])` (line 270): a stable sort by time. -/
def sortTimes (ts : List ℤ) : List ℤ := ts.insertionSort (· ≤ ·)

/-- `max_duration_seconds = messages[-1][0] / 1000.0` (line 271), on the
sorted list; 0 as a junk value for the empty list, which the program has
already ruled out at lines 264-267. -/
def preMaxDuration (ts : List ℤ) : ℚ := (((sortTimes ts).getLast?.getD 0 : ℤ) : ℚ) / 1000

/-- Lines 273-274: default the end time to `max_duration_seconds` when the
requested end is 0. -/
def preEnd (endArg : ℚ) (ts : List ℤ) : ℚ :=
  if endArg = 0 then preMaxDuration ts else endArg

/-- Line 276: `duration_seconds = max(0.0, end - start)`. -/
def preDuration (startArg endArg : ℚ) (ts : List ℤ) : ℚ :=
  max 0 (preEnd endArg ts - startArg)

/-- Degenerate-timing test (line 279):
`duration_seconds <= 0.0 or all(m[0] == messages[0][0] for m in messages)`. -/
def allSameTime (ts : List ℤ) : Bool := ts.all (fun x => x = ts.head?.getD 0)

/-- The fallback branch condition of line 279. -/
def fallbackCond (startArg endArg : ℚ) (ts : List ℤ) : Bool :=
  decide (preDuration startArg endArg ts ≤ 0) || allSameTime (sortTimes ts)

/-- Retiming loop of lines 281-285: starting at `t = 0`, assign the running
time to each message in order and step by the gap. -/
def retimeAux (gap : ℤ) : List ℤ → ℤ → List ℤ
  | [], _ => []
  | _ :: rest, t => t :: retimeAux gap rest (t + gap)

/-- Result of the Timeline Builder: the (possibly retimed) message times and
the recomputed scalars, plus whether the fallback branch fired. -/
structure TimelineResult where
  times : List ℤ
  maxDurationS : ℚ
  endS : ℚ
  durationS : ℚ
  fallbackFired : Bool
  deriving DecidableEq

/-- Lines 269-295: sort, compute `max_duration`/`end`/`duration`, and on
degenerate timing rebuild the timeline with gap `max(1, fallback_gap_ms)`
and recompute the scalars (the end time only when its current value is 0). -/
def buildTimeline (startArg endArg : ℚ) (gapArg : ℤ) (ts : List ℤ) : TimelineResult :=
  let sorted := sortTimes ts
  let end1 := preEnd endArg ts
  let dur1 := preDuration startArg endArg ts
  if fallbackCond startArg endArg ts then
    let gap := max 1 gapArg
    let retimed := retimeAux gap sorted 0
    let maxDur2 : ℚ := ((retimed.getLast?.getD 0 : ℤ) : ℚ) / 1000
    let end2 := if end1 = 0 then maxDur2 else end1
    let dur2 := max 0 (end2 - startArg)
    ⟨retimed, maxDur2, end2, dur2, true⟩
  else ⟨sorted, preMaxDuration ts, end1, dur1, false⟩

/-! ## Layout Engine (`DrawChat`, lines 407-488)

Font metrics and bitmap sizes are abstracted: the word-wrap loop of lines
429-448 consumes the message's tokens (text words and cached emoji glyphs)
as a list of pixel widths.  Both token kinds wrap identically in the
source, so a single placement rule covers them. -/

/-- One positioned token produced by the wrap loop: pen x, line y offset,
token width. -/
structure Placement where
  x : ℕ
  y : ℕ
  w : ℕ
  deriving DecidableEq

/-- Word-wrap loop of lines 429-448: place each token at the pen unless the
pen plus the token width would pass `chat_inner_width`; in that case move
the pen to `author_x`, drop one `chat_line_height`, and place there. -/
def wrapAux (authorX innerW lineH : ℕ) : List ℕ → ℕ → ℕ → List Placement
  | [], _, _ => []
  | w :: rest, x, y =>
    if x + w > innerW then
      ⟨authorX, y + lineH, w⟩ :: wrapAux authorX innerW lineH rest (authorX + w) (y + lineH)
    else
      ⟨x, y, w⟩ :: wrapAux authorX innerW lineH rest (x + w) y

/-- The wrap of one message: the pen starts at `runs_x` (after the avatar
and author prefix) on line offset 0. -/
def wrapPlacements (authorX innerW lineH runsX : ℕ) (ws : List ℕ) : List Placement :=
  wrapAux authorX innerW lineH ws runsX 0

/-- The `--no-clip` option is declared at line 137 with
`action='store_false'`, so `args.no_clip` is `True` when the flag is absent
and `False` when `--no-clip` is passed. -/
def noClipValue (flagPassed : Bool) : Bool := if flagPassed then false else true

/-- Backward layout walk of lines 418-470 reduced to block heights: `y`
accumulates block heights; on overflow (`y > height`) the walk stops, before
appending the offending block when `args.no_clip` is false (line 464) and
just after appending it when `args.no_clip` is true (line 469). -/
def layoutWalk (noClip : Bool) (height : ℕ) : List ℕ → ℕ → List ℕ
  | [], _ => []
  | h :: rest, y =>
    let yNext := y + h
    if !noClip && decide (yNext > height) then []
    else if noClip && decide (yNext > height) then [h]
    else h :: layoutWalk noClip height rest yNext

/-! ## Frame Driver (lines 490-517)

Rasterization (`DrawChat`) reads only the cursor, the immutable message
list, the immutable asset cache and the fixed configuration, so it is
abstracted as a function `render` from the cursor to a pixel buffer; a
buffer is its list of bytes.  The cursor is represented as the number of
visible messages (`current_message_index + 1`), starting at 0. -/

/-- Cursor advance over the suffix of still-invisible message times: the
while loop of line 500 steps while `t_ms > messages[next][0]`. -/
def cursorAdvanceSuffix (t : ℤ) : List ℤ → ℕ
  | [] => 0
  | x :: rest => if t > x then cursorAdvanceSuffix t rest + 1 else 0

/-- The while loop of lines 500-502 acting on the visible-count cursor. -/
def cursorAdvance (times : List ℤ) (t : ℤ) (v : ℕ) : ℕ :=
  v + cursorAdvanceSuffix t (times.drop v)

/-- Redraw flag after the while loop: line 502 sets it on every advance, so
it ends true iff it started true or the cursor moved. -/
def frameDirty (times : List ℤ) (t : ℤ) (v : ℕ) (rd : Bool) : Bool :=
  rd || decide (cursorAdvance times t v ≠ v)

/-- Frame time of line 498: `t_ms = int((start_time_seconds + i / fps) * 1000)`. -/
def frameTimeMs (startS : ℚ) (fps i : ℕ) : ℤ :=
  pyInt ((startS + (i : ℚ) / (fps : ℚ)) * 1000)

/-- Bytes per pixel of the raster buffer: `Image.new` at lines 318-321 uses
RGBA when transparency is requested and RGB otherwise. -/
def bytesPerPixel (transparent : Bool) : ℕ := if transparent then 4 else 3

/-- The blank canvas created by `Image.new` (lines 318-321), as bytes. -/
def blankImage (width height bpp : ℕ) : List ℕ := List.replicate (width * height * bpp) 0

/-- Frame loop of lines 497-517: per remaining frame, compute the frame
time, advance the cursor (marking dirty on any advance), re-rasterize only
when dirty, then emit the current buffer to the encoder sink.  `i` is the
next frame index, `r` the number of frames still to emit. -/
def frameLoopAux (render : ℕ → List ℕ) (times : List ℤ) (startS : ℚ) (fps : ℕ) :
    ℕ → ℕ → ℕ → Bool → List ℕ → List (List ℕ)
  | _, 0, _, _, _ => []
  | i, r + 1, v, rd, img =>
    let t := frameTimeMs startS fps i
    let vNext := cursorAdvance times t v
    let rdNext := frameDirty times t v rd
    let imgNext := if rdNext then render vNext else img
    imgNext :: frameLoopAux render times startS fps (i + 1) r vNext false imgNext

/-- The same loop with the dirty-frame optimization removed: layout and
rasterization run unconditionally on every frame. -/
def frameLoopEager (render : ℕ → List ℕ) (times : List ℤ) (startS : ℚ) (fps : ℕ) :
    ℕ → ℕ → ℕ → List (List ℕ)
  | _, 0, _ => []
  | i, r + 1, v =>
    let t := frameTimeMs startS fps i
    let vNext := cursorAdvance times t v
    render vNext :: frameLoopEager render times startS fps (i + 1) r vNext

/-- `num_frames = int(round(fps * duration_seconds))` (line 492). -/
def numFramesZ (fps : ℕ) (durS : ℚ) : ℤ := pyRound ((fps : ℚ) * durS)

/-- Fatal message of lines 493-495 (frame count below 1). -/
def frameCountMsg : String := "Error: Computed frame count is below 1. Aborting to avoid empty video."

/-- Lines 491-517 as a run: fatal before the loop when the frame count is
below 1, else the full emitted buffer sequence, starting from frame 0,
cursor `-1` (0 visible messages), a set redraw flag and a blank canvas. -/
def renderRun (render : ℕ → List ℕ) (times : List ℤ) (startS : ℚ)
    (fps width height : ℕ) (transparent : Bool) (durS : ℚ) :
    Except String (List (List ℕ)) :=
  if numFramesZ fps durS < 1 then .error frameCountMsg
  else
    .ok (frameLoopAux render times startS fps 0 (numFramesZ fps durS).toNat 0 true
      (blankImage width height (bytesPerPixel transparent)))

/-! ## Auxiliary definitions used by the theorems below -/

/-- Same-line ordering invariant between two placements: line offsets never
decrease, and when two placements share a line the later one starts after
the earlier one ends and ends within the inner content width. -/
def wrapRel (innerW : ℕ) (p q : Placement) : Prop :=
  p.y ≤ q.y ∧ (p.y = q.y → p.x + p.w ≤ q.x ∧ q.x + q.w ≤ innerW)

instance wrapRel_isTrans (innerW : ℕ) : IsTrans Placement (wrapRel innerW) := by
  constructor
  intro a b c hab hbc
  refine ⟨le_trans hab.1 hbc.1, ?_⟩
  intro hac
  have hyab : a.y = b.y := le_antisymm hab.1 (hac ▸ hbc.1)
  have hybc : b.y = c.y := hyab ▸ hac
  obtain ⟨h1, _⟩ := hab.2 hyab
  obtain ⟨h3, h4⟩ := hbc.2 hybc
  exact ⟨le_trans h1 (le_trans (Nat.le_add_right _ _) h3), h4⟩

/-- Consecutive-placement invariant: the same-line invariant plus the reset
of the pen to `author_x` whenever the line changed. -/
def wrapStep (authorX innerW : ℕ) (p q : Placement) : Prop :=
  wrapRel innerW p q ∧ (p.y ≠ q.y → q.x = authorX)

/-- A replay wrapper carrying a negative `videoOffsetTimeMsec` around an
ordinary text-message renderer, as yt-dlp emits for pre-stream chat. -/
def negOffsetAction : Json :=
  .obj [("replayChatItemAction", .obj [
    ("videoOffsetTimeMsec", .num (-500)),
    ("actions", .arr [
      .obj [("addChatItemAction", .obj [
        ("item", .obj [
          ("liveChatTextMessageRenderer", .obj [("timestampUsec", .num 1000000)])])])]])])]

/-- Demonstration parser for the witness: parses exactly one fixed
transcript string into an actions object and one fixed line into an
action, failing on everything else. -/
def parseDemo : String → Option Json
  | "X" => some (.obj [("actions", .arr [.num 1, .num 2])])
  | "a" => some (.obj [("addChatItemAction", .obj [])])
  | _ => none


/-! ## Helper lemmas about the Timeline Builder -/

theorem retimeAux_length (gap : ℤ) (l : List ℤ) (t : ℤ) :
    (retimeAux gap l t).length = l.length := by
  induction l generalizing t with
  | nil => rfl
  | cons a rest ih => simp [retimeAux, ih]

theorem retimeAux_getElemBang (gap : ℤ) (l : List ℤ) (t : ℤ) (j : ℕ) (hj : j < l.length) :
    (retimeAux gap l t)[j]! = t + j * gap := by
  induction l generalizing t j with
  | nil => exact absurd hj (by simp)
  | cons a rest ih =>
    cases j with
    | zero => simp [retimeAux]
    | succ n =>
      have hn : n < rest.length := by simpa using hj
      have hrec := ih (t + gap) n hn
      have hlen : n < (retimeAux gap rest (t + gap)).length := by
        rw [retimeAux_length]; exact hn
      have hlen2 : n + 1 < (t :: retimeAux gap rest (t + gap)).length := by
        simpa using hlen
      simp only [retimeAux]
      rw [getElem!_pos (t :: retimeAux gap rest (t + gap)) (n + 1) hlen2,
        List.getElem_cons_succ, ← getElem!_pos (retimeAux gap rest (t + gap)) n hlen, hrec]
      push_cast
      ring

theorem retimeAux_getLast (gap : ℤ) (l : List ℤ) (t : ℤ) (hne : l ≠ []) :
    (retimeAux gap l t).getLast?.getD 0 = t + ((l.length : ℤ) - 1) * gap := by
  induction l generalizing t with
  | nil => exact absurd rfl hne
  | cons a rest ih =>
    cases rest with
    | nil => simp [retimeAux]
    | cons b rest2 =>
      have h2 := ih (t + gap) (by simp)
      simp only [retimeAux] at h2 ⊢
      rw [List.getLast?_cons_cons, h2]
      simp only [List.length_cons]
      push_cast
      ring

theorem buildTimeline_fired_iff (s e : ℚ) (g : ℤ) (ts : List ℤ) :
    (buildTimeline s e g ts).fallbackFired = fallbackCond s e ts := by
  rcases Bool.eq_false_or_eq_true (fallbackCond s e ts) with hc | hc <;>
    simp [buildTimeline, hc]

theorem fallbackCond_of_allSame (s e : ℚ) (ts : List ℤ)
    (h : allSameTime (sortTimes ts) = true) : fallbackCond s e ts = true := by
  rw [fallbackCond, h, Bool.or_true]

theorem buildTimeline_times_of_fired (s e : ℚ) (g : ℤ) (ts : List ℤ)
    (hc : fallbackCond s e ts = true) :
    (buildTimeline s e g ts).times = retimeAux (max 1 g) (sortTimes ts) 0 := by
  simp [buildTimeline, hc]

theorem buildTimeline_maxDur_of_fired (s e : ℚ) (g : ℤ) (ts : List ℤ)
    (hc : fallbackCond s e ts = true) :
    (buildTimeline s e g ts).maxDurationS =
      (((retimeAux (max 1 g) (sortTimes ts) 0).getLast?.getD 0 : ℤ) : ℚ) / 1000 := by
  simp [buildTimeline, hc]

theorem buildTimeline_endS_of_fired (s e : ℚ) (g : ℤ) (ts : List ℤ)
    (hc : fallbackCond s e ts = true) :
    (buildTimeline s e g ts).endS =
      (if preEnd e ts = 0 then (buildTimeline s e g ts).maxDurationS else preEnd e ts) := by
  simp [buildTimeline, hc]

theorem buildTimeline_durationS_of_fired (s e : ℚ) (g : ℤ) (ts : List ℤ)
    (hc : fallbackCond s e ts = true) :
    (buildTimeline s e g ts).durationS = max 0 ((buildTimeline s e g ts).endS - s) := by
  simp [buildTimeline, hc]

/-! ## Claim C1 -/

/-- C1 (code bug evaluation).  The claim says clipping is enabled by
default (without `--no-clip` the overflowing message is excluded and the
rendered heights sum to at most the canvas height) and that `--no-clip`
includes the overflowing message.  Because the option is declared with
`action='store_false'` (line 137), `args.no_clip` is `True` precisely when
the flag is absent, so the default run takes the include-overflow branch of
line 469: at the failing input below (canvas height 50, one block of
height 100) the default walk keeps the overflowing block and the rendered
sum exceeds the canvas height, while passing `--no-clip` excludes it.  The
code inverts its own flag documentation; the claim matches the intent. -/
theorem C1_flag_inversion :
    noClipValue false = true ∧
    noClipValue true = false ∧
    layoutWalk (noClipValue false) 50 [100] 0 = [100] ∧
    50 < (layoutWalk (noClipValue false) 50 [100] 0).sum ∧
    layoutWalk (noClipValue true) 50 [100] 0 = [] := by
  decide

/-! ## Claim C3 -/

/-- C3 counterexample.  With configured `fallback_gap_ms = 0` and two
messages sharing one timestamp, the fallback fires but consecutive retimed
messages differ by `max(1, 0) = 1`, not by the configured gap 0: the
claim's "differ by exactly the configured fallback_gap_ms, for every
configured value" fails. -/
theorem C3_counterexample :
    (buildTimeline 0 0 0 [5, 5]).fallbackFired = true ∧
    (buildTimeline 0 0 0 [5, 5]).times = [0, 1] ∧
    ¬ (buildTimeline 0 0 0 [5, 5]).times[1]! - (buildTimeline 0 0 0 [5, 5]).times[0]! = 0 := by
  have hc : fallbackCond 0 0 [5, 5] = true := fallbackCond_of_allSame 0 0 [5, 5] (by decide)
  have htimes := buildTimeline_times_of_fired 0 0 0 [5, 5] hc
  refine ⟨by rw [buildTimeline_fired_iff]; exact hc, ?_, ?_⟩
  · rw [htimes]; decide
  · rw [htimes]; decide

/-- C3 (amended).  For every non-empty message list, the degenerate-timing
fallback fires iff the computed duration is at most 0 or all messages share
one `time_ms`; after the fallback, consecutive messages differ by exactly
`max(1, fallback_gap_ms)` (the configured gap clamped to at least 1 by
line 280), which is the configured gap for every configured value of at
least 1. -/
theorem C3_fallback_trigger_and_gap (startArg endArg : ℚ) (gapArg : ℤ) (ts : List ℤ)
    (_hne : ts ≠ []) :
    ((buildTimeline startArg endArg gapArg ts).fallbackFired = true ↔
      (preDuration startArg endArg ts ≤ 0 ∨ allSameTime (sortTimes ts) = true)) ∧
    ((buildTimeline startArg endArg gapArg ts).fallbackFired = true →
      ∀ j, j + 1 < (buildTimeline startArg endArg gapArg ts).times.length →
        (buildTimeline startArg endArg gapArg ts).times[j + 1]! -
          (buildTimeline startArg endArg gapArg ts).times[j]! = max 1 gapArg) := by
  constructor
  · rw [buildTimeline_fired_iff, fallbackCond]
    simp [Bool.or_eq_true, decide_eq_true_eq]
  · intro hfired j hj
    rw [buildTimeline_fired_iff] at hfired
    have htimes := buildTimeline_times_of_fired startArg endArg gapArg ts hfired
    rw [htimes] at hj ⊢
    rw [retimeAux_length] at hj
    rw [retimeAux_getElemBang _ _ _ _ hj, retimeAux_getElemBang _ _ _ _ (by omega)]
    push_cast
    ring

/-- C3 witness: two messages at the same nonzero time with configured gap 5
fire the fallback and end up exactly `max 1 5 = 5` ms apart. -/
theorem C3_witness :
    (buildTimeline 0 0 5 [3, 3]).fallbackFired = true ∧
    (buildTimeline 0 0 5 [3, 3]).times[1]! - (buildTimeline 0 0 5 [3, 3]).times[0]! =
      max 1 5 := by
  have hc : fallbackCond 0 0 [3, 3] = true := fallbackCond_of_allSame 0 0 [3, 3] (by decide)
  have hfired : (buildTimeline 0 0 5 [3, 3]).fallbackFired = true := by
    rw [buildTimeline_fired_iff]; exact hc
  have htimes := buildTimeline_times_of_fired 0 0 5 [3, 3] hc
  refine ⟨hfired, ?_⟩
  exact (C3_fallback_trigger_and_gap 0 0 5 [3, 3] (by decide)).2 hfired 0
    (by rw [htimes]; decide)

/-! ## Claim C5 -/

/-- C5 counterexample.  Messages all at 5000 ms with no explicit end
requested: the end time was defaulted (to 5 s) before the fallback, the
fallback fires because all timestamps coincide, and the code keeps the end
at 5 s because it only recomputes the end when its current value is 0 — the
claim's "the end time (whenever the end was defaulted) is recomputed from
the synthetic series" would give the synthetic `max_duration = 6/5` s
instead. -/
theorem C5_counterexample :
    (buildTimeline 0 0 1200 [5000, 5000]).fallbackFired = true ∧
    (buildTimeline 0 0 1200 [5000, 5000]).maxDurationS = 6 / 5 ∧
    (buildTimeline 0 0 1200 [5000, 5000]).endS = 5 ∧
    ¬ (buildTimeline 0 0 1200 [5000, 5000]).endS =
      (buildTimeline 0 0 1200 [5000, 5000]).maxDurationS := by
  have hc : fallbackCond 0 0 [5000, 5000] = true :=
    fallbackCond_of_allSame 0 0 [5000, 5000] (by decide)
  have hlast : (retimeAux (max 1 1200) (sortTimes [5000, 5000]) 0).getLast?.getD 0 = 1200 := by
    decide
  have hmax : (buildTimeline 0 0 1200 [5000, 5000]).maxDurationS = 6 / 5 := by
    rw [buildTimeline_maxDur_of_fired 0 0 1200 [5000, 5000] hc, hlast]
    norm_num
  have hpe : preEnd 0 [5000, 5000] = 5 := by
    have hs : (sortTimes [5000, 5000]).getLast?.getD 0 = 5000 := by decide
    rw [preEnd, if_pos rfl, preMaxDuration, hs]
    norm_num
  have hend : (buildTimeline 0 0 1200 [5000, 5000]).endS = 5 := by
    rw [buildTimeline_endS_of_fired 0 0 1200 [5000, 5000] hc, hpe]
    norm_num
  refine ⟨by rw [buildTimeline_fired_iff]; exact hc, hmax, hend, ?_⟩
  rw [hmax, hend]
  norm_num

/-- C5 (amended).  Whenever the fallback fires, the i-th message in sorted
order is assigned `time_ms = i * max(1, fallback_gap_ms)`; `max_duration`
and the duration are recomputed from the synthetic series, and the end time
is recomputed only when its pre-fallback value is 0 (not whenever it was
defaulted).  The concrete scenario of the claim (4 messages all at
timestamp 0, gap 1200) yields timeline {0, 1200, 2400, 3600} and duration
3.6 s, as stated. -/
theorem C5_fallback_retime (startArg endArg : ℚ) (gapArg : ℤ) (ts : List ℤ)
    (_hne : ts ≠ []) (hfire : fallbackCond startArg endArg ts = true) :
    ((buildTimeline startArg endArg gapArg ts).times.length = ts.length ∧
      ∀ j, j < ts.length →
        (buildTimeline startArg endArg gapArg ts).times[j]! = j * max 1 gapArg) ∧
    (buildTimeline startArg endArg gapArg ts).maxDurationS =
      ((((ts.length : ℤ) - 1) * max 1 gapArg : ℤ) : ℚ) / 1000 ∧
    (buildTimeline startArg endArg gapArg ts).endS =
      (if preEnd endArg ts = 0 then (buildTimeline startArg endArg gapArg ts).maxDurationS
       else preEnd endArg ts) ∧
    (buildTimeline startArg endArg gapArg ts).durationS =
      max 0 ((buildTimeline startArg endArg gapArg ts).endS - startArg) ∧
    (buildTimeline 0 0 1200 [0, 0, 0, 0]).times = [0, 1200, 2400, 3600] ∧
    (buildTimeline 0 0 1200 [0, 0, 0, 0]).endS = 18 / 5 ∧
    (buildTimeline 0 0 1200 [0, 0, 0, 0]).durationS = 18 / 5 := by
  have hsortlen : (sortTimes ts).length = ts.length := List.length_insertionSort _ ts
  have hsortne : sortTimes ts ≠ [] := by
    intro h
    apply _hne
    rw [h] at hsortlen
    exact List.length_eq_zero.mp hsortlen.symm
  have htimes := buildTimeline_times_of_fired startArg endArg gapArg ts hfire
  have hc4 : fallbackCond 0 0 [0, 0, 0, 0] = true :=
    fallbackCond_of_allSame 0 0 [0, 0, 0, 0] (by decide)
  have htimes4 : (buildTimeline 0 0 1200 [0, 0, 0, 0]).times = [0, 1200, 2400, 3600] := by
    rw [buildTimeline_times_of_fired 0 0 1200 [0, 0, 0, 0] hc4]; decide
  have hmax4 : (buildTimeline 0 0 1200 [0, 0, 0, 0]).maxDurationS = 18 / 5 := by
    rw [buildTimeline_maxDur_of_fired 0 0 1200 [0, 0, 0, 0] hc4]
    have : (retimeAux (max 1 1200) (sortTimes [0, 0, 0, 0]) 0).getLast?.getD 0 = 3600 := by
      decide
    rw [this]
    norm_num
  have hpe4 : preEnd 0 [0, 0, 0, 0] = 0 := by
    have hs : (sortTimes [0, 0, 0, 0]).getLast?.getD 0 = 0 := by decide
    rw [preEnd, if_pos rfl, preMaxDuration, hs]
    norm_num
  have hend4 : (buildTimeline 0 0 1200 [0, 0, 0, 0]).endS = 18 / 5 := by
    rw [buildTimeline_endS_of_fired 0 0 1200 [0, 0, 0, 0] hc4, if_pos hpe4, hmax4]
  refine ⟨⟨?_, ?_⟩, ?_, ?_, ?_, htimes4, hend4, ?_⟩
  · rw [htimes, retimeAux_length, hsortlen]
  · intro j hj
    rw [htimes, retimeAux_getElemBang _ _ _ _ (by rw [hsortlen]; exact hj)]
    ring
  · rw [buildTimeline_maxDur_of_fired startArg endArg gapArg ts hfire,
      retimeAux_getLast _ _ _ hsortne, hsortlen]
    push_cast
    ring_nf
  · exact buildTimeline_endS_of_fired startArg endArg gapArg ts hfire
  · exact buildTimeline_durationS_of_fired startArg endArg gapArg ts hfire
  · rw [buildTimeline_durationS_of_fired 0 0 1200 [0, 0, 0, 0] hc4, hend4]
    norm_num

/-- C5 witness: the claim's own scenario input fires the fallback and the
second message lands at `1 * max 1 1200 = 1200` ms. -/
theorem C5_witness :
    fallbackCond 0 0 [0, 0, 0, 0] = true ∧
    (buildTimeline 0 0 1200 [0, 0, 0, 0]).times[1]! = 1 * max 1 1200 := by
  have hc : fallbackCond 0 0 [0, 0, 0, 0] = true :=
    fallbackCond_of_allSame 0 0 [0, 0, 0, 0] (by decide)
  exact ⟨hc,
    by simpa using ((C5_fallback_retime 0 0 1200 [0, 0, 0, 0] (by decide) hc).1).2 1 (by decide)⟩

/-! ## Helper lemmas about the Frame Driver -/

theorem getElemBang_cons_succ (x : ℤ) (l : List ℤ) (n : ℕ) : (x :: l)[n + 1]! = l[n]! := by
  by_cases h : n < l.length
  · rw [getElem!_pos (x :: l) (n + 1) (by simpa using h), getElem!_pos l n h,
      List.getElem_cons_succ]
  · rw [getElem!_neg (x :: l) (n + 1) (by simpa using h), getElem!_neg l n h]

theorem getElemBang_drop (l : List ℤ) (v j : ℕ) : (l.drop v)[j]! = l[v + j]! := by
  by_cases h : j < (l.drop v).length
  · rw [getElem!_pos (l.drop v) j h,
      getElem!_pos l (v + j) (by simp only [List.length_drop] at h; omega),
      List.getElem_drop]
  · rw [getElem!_neg (l.drop v) j h,
      getElem!_neg l (v + j) (by simp only [List.length_drop] at h; omega)]

theorem cursorAdvanceSuffix_le_length (t : ℤ) (l : List ℤ) :
    cursorAdvanceSuffix t l ≤ l.length := by
  induction l with
  | nil => simp [cursorAdvanceSuffix]
  | cons x rest ih =>
    by_cases h : t > x
    · simp only [cursorAdvanceSuffix, if_pos h, List.length_cons]
      omega
    · simp [cursorAdvanceSuffix, h]

theorem cursorAdvanceSuffix_lt_bang (t : ℤ) (l : List ℤ) (j : ℕ)
    (hlt : j < cursorAdvanceSuffix t l) : l[j]! < t := by
  induction l generalizing j with
  | nil => simp [cursorAdvanceSuffix] at hlt
  | cons x rest ih =>
    by_cases hx : t > x
    · cases j with
      | zero =>
        rw [getElem!_pos (x :: rest) 0 (by simp), List.getElem_cons_zero]
        exact hx
      | succ n =>
        rw [getElemBang_cons_succ]
        apply ih
        simp only [cursorAdvanceSuffix, if_pos hx] at hlt
        omega
    · simp [cursorAdvanceSuffix, hx] at hlt

theorem cursorAdvanceSuffix_stop_bang (t : ℤ) (l : List ℤ)
    (h : cursorAdvanceSuffix t l < l.length) : t ≤ l[cursorAdvanceSuffix t l]! := by
  induction l with
  | nil => simp at h
  | cons x rest ih =>
    by_cases hx : t > x
    · have hs : cursorAdvanceSuffix t (x :: rest) = cursorAdvanceSuffix t rest + 1 := by
        simp [cursorAdvanceSuffix, hx]
      rw [hs, getElemBang_cons_succ]
      apply ih
      rw [hs] at h
      simpa using h
    · have hs : cursorAdvanceSuffix t (x :: rest) = 0 := by
        simp [cursorAdvanceSuffix, hx]
      rw [hs, getElem!_pos (x :: rest) 0 (by simp), List.getElem_cons_zero]
      omega

theorem pyInt_intCast (n : ℤ) : pyInt ((n : ℤ) : ℚ) = n := by
  rw [pyInt]
  by_cases h : (0 : ℚ) ≤ (n : ℚ) <;> simp [h]

theorem pyRound_intCast (n : ℤ) : pyRound ((n : ℤ) : ℚ) = n := by
  rw [pyRound, Int.floor_intCast]
  norm_num

theorem frameLoopAux_length (render : ℕ → List ℕ) (times : List ℤ) (startS : ℚ) (fps : ℕ) :
    ∀ (r i v : ℕ) (rd : Bool) (img : List ℕ),
      (frameLoopAux render times startS fps i r v rd img).length = r := by
  intro r
  induction r with
  | zero => intro i v rd img; rfl
  | succ n ih =>
    intro i v rd img
    simp only [frameLoopAux, List.length_cons, ih]

theorem frameLoopAux_bytes (render : ℕ → List ℕ) (times : List ℤ) (startS : ℚ) (fps : ℕ)
    (B : ℕ) (hrender : ∀ c, (render c).length = B) :
    ∀ (r i v : ℕ) (rd : Bool) (img : List ℕ), img.length = B →
      ((frameLoopAux render times startS fps i r v rd img).map List.length).sum = r * B := by
  intro r
  induction r with
  | zero => intro i v rd img _; simp [frameLoopAux]
  | succ n ih =>
    intro i v rd img himg
    simp only [frameLoopAux, List.map_cons, List.sum_cons]
    have himgNext : (if frameDirty times (frameTimeMs startS fps i) v rd then
        render (cursorAdvance times (frameTimeMs startS fps i) v) else img).length = B := by
      by_cases hc : frameDirty times (frameTimeMs startS fps i) v rd = true
      · simp [hc, hrender]
      · simp only [Bool.not_eq_true] at hc
        simp [hc, himg]
    rw [ih _ _ _ _ himgNext, himgNext]
    ring

theorem frameLoop_eager_equiv (render : ℕ → List ℕ) (times : List ℤ) (startS : ℚ) (fps : ℕ) :
    ∀ (r i v : ℕ) (rd : Bool) (img : List ℕ), (rd = false → img = render v) →
      frameLoopAux render times startS fps i r v rd img =
        frameLoopEager render times startS fps i r v := by
  intro r
  induction r with
  | zero => intro i v rd img _; rfl
  | succ n ih =>
    intro i v rd img hinv
    simp only [frameLoopAux, frameLoopEager]
    rcases Bool.eq_false_or_eq_true (frameDirty times (frameTimeMs startS fps i) v rd)
      with hd | hd
    · have himgNext : (if frameDirty times (frameTimeMs startS fps i) v rd = true then
          render (cursorAdvance times (frameTimeMs startS fps i) v) else img) =
          render (cursorAdvance times (frameTimeMs startS fps i) v) := if_pos hd
      rw [himgNext]
      exact congrArg _ (ih _ _ _ _ (fun _ => rfl))
    · have h1 : rd = false := by
        cases rd
        · rfl
        · rw [frameDirty] at hd
          simp at hd
      have h2 : cursorAdvance times (frameTimeMs startS fps i) v = v := by
        by_contra hne
        rw [frameDirty] at hd
        simp [hne] at hd
      have himg : img = render v := hinv h1
      have himgNext : (if frameDirty times (frameTimeMs startS fps i) v rd = true then
          render (cursorAdvance times (frameTimeMs startS fps i) v) else img) = img :=
        if_neg (by rw [hd]; exact Bool.false_ne_true)
      rw [himgNext, h2, himg]
      exact congrArg _ (ih _ _ _ _ (fun _ => rfl))

/-! ## Claim C2 -/

/-- C2 counterexample.  Frame 0 with `start = 0`, `fps = 1` has frame time
`t_ms = 0`; the single message at `time_ms = 0` satisfies the claim's
advance condition `time_ms ≤ t_ms`, yet the while loop of line 500 (which
requires `t_ms > time_ms`, strictly) does not advance the cursor, so a
message whose `time_ms` equals the frame time does not become visible on
that frame. -/
theorem C2_counterexample :
    frameTimeMs 0 1 0 = 0 ∧
    ((0 : ℤ) ≤ frameTimeMs 0 1 0) ∧
    cursorAdvance [(0 : ℤ)] (frameTimeMs 0 1 0) 0 = 0 := by
  have h : frameTimeMs 0 1 0 = 0 := by
    have harg : ((0 : ℚ) + ((0 : ℕ) : ℚ) / ((1 : ℕ) : ℚ)) * 1000 = (((0 : ℤ) : ℤ) : ℚ) := by
      push_cast
      ring
    rw [frameTimeMs, harg, pyInt_intCast]
  refine ⟨h, by rw [h], by rw [h]; decide⟩

/-- C2 (amended).  For frame `i` the frame time is
`t_ms = int((start + i/fps) * 1000)` (Python truncation), and the driver
advances the cursor while the next message's `time_ms` is strictly less
than `t_ms`: every message skipped over by the advance has `time_ms < t_ms`,
the message at the stopping position (if any) has `time_ms ≥ t_ms`, and any
advance marks the frame dirty. -/
theorem C2_advance_characterization (times : List ℤ) (startS : ℚ) (fps i : ℕ)
    (v : ℕ) (rd : Bool) (t : ℤ) (ht : t = frameTimeMs startS fps i) :
    v ≤ cursorAdvance times t v ∧
    (v ≤ times.length → cursorAdvance times t v ≤ times.length) ∧
    (∀ j, v ≤ j → j < cursorAdvance times t v → times[j]! < t) ∧
    (cursorAdvance times t v < times.length → t ≤ times[cursorAdvance times t v]!) ∧
    (cursorAdvance times t v ≠ v → frameDirty times t v rd = true) ∧
    (frameDirty times t v rd = false → rd = false ∧ cursorAdvance times t v = v) := by
  subst ht
  set t := frameTimeMs startS fps i with hteq
  refine ⟨Nat.le_add_right v _, ?_, ?_, ?_, ?_, ?_⟩
  · intro hv
    have hs := cursorAdvanceSuffix_le_length t (times.drop v)
    simp only [List.length_drop] at hs
    simp only [cursorAdvance]
    omega
  · intro j hvj hjlt
    simp only [cursorAdvance] at hjlt
    have hlt : j - v < cursorAdvanceSuffix t (times.drop v) := by omega
    have hres := cursorAdvanceSuffix_lt_bang t (times.drop v) (j - v) hlt
    rw [getElemBang_drop] at hres
    have hj : v + (j - v) = j := by omega
    rwa [hj] at hres
  · intro hlt
    have hdl : cursorAdvanceSuffix t (times.drop v) < (times.drop v).length := by
      simp only [cursorAdvance] at hlt
      simp only [List.length_drop]
      omega
    have hres := cursorAdvanceSuffix_stop_bang t (times.drop v) hdl
    rw [getElemBang_drop] at hres
    exact hres
  · intro hne
    simp [frameDirty, hne]
  · intro hfd
    simp only [frameDirty, Bool.or_eq_false_iff, decide_eq_false_iff_not,
      Decidable.not_not] at hfd
    exact hfd

/-- C2 witness: frame 1 with `start = 0`, `fps = 1` has frame time 1000 ms
and the advance characterization shows the skipped message at 5 ms has
`time_ms < t_ms`. -/
theorem C2_witness :
    frameTimeMs 0 1 1 = 1000 ∧ [(5 : ℤ)][0]! < frameTimeMs 0 1 1 := by
  have h : frameTimeMs 0 1 1 = 1000 := by
    have harg : ((0 : ℚ) + ((1 : ℕ) : ℚ) / ((1 : ℕ) : ℚ)) * 1000 = (((1000 : ℤ) : ℤ) : ℚ) := by
      push_cast
      ring
    rw [frameTimeMs, harg, pyInt_intCast]
  refine ⟨h, ?_⟩
  refine (C2_advance_characterization [5] 0 1 1 0 false (frameTimeMs 0 1 1) rfl).2.2.1 0
    (Nat.le_refl 0) ?_
  rw [h]
  decide

/-! ## Claim C10 -/

/-- C10.  The dirty-frame optimization is semantics-preserving: starting
from a set redraw flag (as the program does at line 491), the loop that
re-rasterizes only on dirty frames emits exactly the buffer sequence of the
loop that invokes layout-and-rasterize on every frame unconditionally, for
every deterministic rasterizer, message list, start time, frame rate, frame
count and initial buffer. -/
theorem C10_dirty_frame_equivalence (render : ℕ → List ℕ) (times : List ℤ) (startS : ℚ)
    (fps r i v : ℕ) (img : List ℕ) :
    frameLoopAux render times startS fps i r v true img =
      frameLoopEager render times startS fps i r v :=
  frameLoop_eager_equiv render times startS fps r i v true img
    (fun h => Bool.noConfusion h)

/-! ## Claim C4 -/

/-- C4.  The run is fatal before the loop when `round(fps * duration) < 1`;
otherwise the loop emits exactly `round(fps * duration)` frames, and since
every emitted buffer has `width * height * bytes_per_pixel` bytes (4 bytes
per pixel for a transparent RGBA canvas, 3 for an RGB one, lines 318-321),
the total bytes written to the encoder sink are
`frames * width * height * bytes_per_pixel`. -/
theorem C4_frames_and_bytes (render : ℕ → List ℕ) (times : List ℤ) (startS : ℚ)
    (fps width height : ℕ) (transparent : Bool) (durS : ℚ)
    (hrender : ∀ c, (render c).length = width * height * bytesPerPixel transparent) :
    bytesPerPixel transparent = (if transparent then 4 else 3) ∧
    (numFramesZ fps durS < 1 →
      renderRun render times startS fps width height transparent durS = .error frameCountMsg) ∧
    (1 ≤ numFramesZ fps durS →
      renderRun render times startS fps width height transparent durS =
        .ok (frameLoopAux render times startS fps 0 (numFramesZ fps durS).toNat 0 true
          (blankImage width height (bytesPerPixel transparent)))) ∧
    (frameLoopAux render times startS fps 0 (numFramesZ fps durS).toNat 0 true
        (blankImage width height (bytesPerPixel transparent))).length =
      (numFramesZ fps durS).toNat ∧
    ((frameLoopAux render times startS fps 0 (numFramesZ fps durS).toNat 0 true
        (blankImage width height (bytesPerPixel transparent))).map List.length).sum =
      (numFramesZ fps durS).toNat * (width * height * bytesPerPixel transparent) := by
  refine ⟨rfl, ?_, ?_, frameLoopAux_length render times startS fps _ 0 0 true _,
    frameLoopAux_bytes render times startS fps _ hrender _ 0 0 true _ (by simp [blankImage])⟩
  · intro h
    rw [renderRun, if_pos h]
  · intro h
    rw [renderRun, if_neg (by omega)]

/-- C4 witness: `fps = 2`, `duration = 1` gives `round(2 * 1) = 2 ≥ 1`
frames and the run emits the frame list. -/
theorem C4_witness :
    (1 : ℤ) ≤ numFramesZ 2 1 ∧
    renderRun (fun _ => List.replicate 12 0) [] 0 2 2 2 false 1 =
      .ok (frameLoopAux (fun _ => List.replicate 12 0) [] 0 2 0 (numFramesZ 2 1).toNat 0 true
        (blankImage 2 2 (bytesPerPixel false))) := by
  have hn : numFramesZ 2 1 = 2 := by
    have harg : ((2 : ℕ) : ℚ) * 1 = (((2 : ℤ) : ℤ) : ℚ) := by
      push_cast
      ring
    rw [numFramesZ, harg, pyRound_intCast]
  refine ⟨by rw [hn]; decide, ?_⟩
  exact (C4_frames_and_bytes (fun _ => List.replicate 12 0) [] 0 2 2 2 false 1
    (fun c => by simp [bytesPerPixel])).2.2.1 (by rw [hn]; decide)

/-! ## Claim C6 -/

/-- C6 counterexample.  Extraction of a replay action with
`videoOffsetTimeMsec = -500` finds the renderer (so a message is produced),
and the explicit-offset path of lines 223-224 assigns `time_ms = -500`, a
negative value: the claimed invariant `time_ms ≥ 0` fails.  Only the
timestamp path of line 226 is clamped with `max(0, ...)`. -/
theorem C6_counterexample :
    (extractRendererAndTimes negOffsetAction).1.isSome = true ∧
    (extractRendererAndTimes negOffsetAction).2.2 = some (-500) ∧
    computeTimeMs (some 1000000) (extractRendererAndTimes negOffsetAction).2.1
      (extractRendererAndTimes negOffsetAction).2.2 = some (-500) ∧
    ¬ (0 : ℤ) ≤ -500 := by
  decide

/-- C6 (amended).  The computed `time_ms` is nonnegative on the timestamp
path (clamped by `max(0, ...)` at line 226); on the explicit-offset path
`time_ms` equals the replay offset unchanged, so it is negative exactly
when the wrapper carries a negative `videoOffsetTimeMsec`. -/
theorem C6_time_paths (firstTsUsec tsUsec offsetMs : Option ℤ) :
    (∀ o : ℤ, offsetMs = some o → computeTimeMs firstTsUsec tsUsec offsetMs = some o) ∧
    (offsetMs = none → ∀ t : ℤ, computeTimeMs firstTsUsec tsUsec none = some t → 0 ≤ t) := by
  constructor
  · intro o ho
    rw [ho]
    rfl
  · intro _ t ht
    cases tsUsec with
    | none => simp [computeTimeMs] at ht
    | some u =>
      cases firstTsUsec with
      | none => simp [computeTimeMs] at ht
      | some f =>
        simp only [computeTimeMs, Option.some.injEq] at ht
        rw [← ht]
        exact le_max_left 0 _

/-- C6 witness: a message on the timestamp path 5000 µs after the first
timestamp gets `time_ms = 5` which is nonnegative. -/
theorem C6_witness :
    computeTimeMs (some 0) (some 5000) none = some 5 ∧ (0 : ℤ) ≤ 5 :=
  ⟨by decide, (C6_time_paths (some 0) (some 5000) none).2 rfl 5 (by decide)⟩

/-! ## Claim C8 -/

/-- C8.  `_load_chat_actions` tries its strategies in the fixed order: a
whole-input object with an `actions` list wins outright; otherwise a
whole-input object carrying a recognized wrapper key is returned as a
singleton; otherwise a whole-input bare list is returned as-is; otherwise
(including when the whole-input parse raises) the line-delimited fallback
parses every non-blank stripped line independently, and a line that fails
to parse is silently dropped without affecting the rest of the load. -/
theorem C8_parse_strategy_order (parse : String → Option Json) (raw : String) :
    (∀ d l, parse raw = some d → actionsList d = some l →
      loadChatActions parse raw = l) ∧
    (∀ d, parse raw = some d → actionsList d = none → isSingleAction d = true →
      loadChatActions parse raw = [d]) ∧
    (∀ l, parse raw = some (.arr l) → loadChatActions parse raw = l) ∧
    (parse raw = none → loadChatActions parse raw = jsonlFallback parse (splitLines raw)) ∧
    (∀ ls1 ls2 bad, parse bad.trim = none →
      jsonlFallback parse (ls1 ++ bad :: ls2) = jsonlFallback parse (ls1 ++ ls2)) := by
  refine ⟨?_, ?_, ?_, ?_, ?_⟩
  · intro d l hp ha
    simp [loadChatActions, hp, ha]
  · intro d hp ha hs
    simp [loadChatActions, hp, ha, hs]
  · intro l hp
    simp [loadChatActions, hp, actionsList, Json.lookupKey, isSingleAction, Json.hasKey]
  · intro hp
    simp [loadChatActions, hp]
  · intro ls1 ls2 bad hbad
    rw [jsonlFallback, jsonlFallback, List.filterMap_append, List.filterMap_append]
    congr 1
    rw [List.filterMap_cons]
    by_cases hblank : bad.trim = ""
    · rw [if_pos hblank]
    · rw [if_neg hblank, hbad]

/-- C8 witness: the demonstration parser parses the whole input as an
actions object, and the load returns that list; a malformed line dropped
from the fallback does not change its result. -/
theorem C8_witness :
    loadChatActions parseDemo "X" = [.num 1, .num 2] ∧
    jsonlFallback (fun _ => none) ["a", "oops", "a"] = jsonlFallback (fun _ => none) ["a", "a"] :=
  ⟨(C8_parse_strategy_order parseDemo "X").1 (.obj [("actions", .arr [.num 1, .num 2])])
      [.num 1, .num 2] rfl rfl,
    (C8_parse_strategy_order (fun _ => none) "whatever").2.2.2.2 ["a"] ["a"] "oops" rfl⟩

/-! ## Claim C9 -/

/-- C9.  Whenever zero messages survive extraction and window filtering,
the run fails with one of two distinct messages selected by cause: the
window-empty message when a nonzero end time was requested, the file-empty
message otherwise; and when a nonzero end window lies below every message
time (in particular below the first message's time), the filter empties the
list, producing the window-empty failure. -/
theorem C9_empty_guard (endS : ℚ) (ts : List ℤ) :
    (filterWindow endS ts = [] → endS ≠ 0 →
      checkNonempty endS (filterWindow endS ts) = .error windowEmptyMsg) ∧
    (filterWindow endS ts = [] → endS = 0 →
      checkNonempty endS (filterWindow endS ts) = .error fileEmptyMsg) ∧
    windowEmptyMsg ≠ fileEmptyMsg ∧
    (endS ≠ 0 → (∀ x ∈ ts, pyInt (endS * 1000) < x) → filterWindow endS ts = []) := by
  refine ⟨?_, ?_, by decide, ?_⟩
  · intro hemp hne
    rw [hemp]
    simp [checkNonempty, hne]
  · intro hemp he
    rw [hemp]
    simp [checkNonempty, he]
  · intro hne hx
    rw [filterWindow, List.filter_eq_nil_iff]
    intro x hmem
    rw [windowKeep]
    simp only [Bool.not_eq_true, Bool.not_eq_true']
    rw [decide_eq_true hne, Bool.true_and]
    simp [hx x hmem]

/-- C9 witness: end window 1 s with a single message at 2000 ms: the filter
empties the list and the run fails with the window-empty message. -/
theorem C9_witness :
    filterWindow 1 [2000] = [] ∧
    checkNonempty 1 (filterWindow 1 [2000]) = .error windowEmptyMsg := by
  have h := C9_empty_guard 1 [2000]
  have hfil : filterWindow 1 [2000] = [] := by
    refine h.2.2.2 (by norm_num) ?_
    intro x hx
    have hx2 : x = 2000 := by simpa using hx
    have hpi : pyInt ((1 : ℚ) * 1000) = 1000 := by
      have harg : (1 : ℚ) * 1000 = (((1000 : ℤ) : ℤ) : ℚ) := by norm_num
      rw [harg, pyInt_intCast]
    rw [hpi, hx2]
    decide
  exact ⟨hfil, h.1 hfil (by norm_num)⟩

/-! ## Claim C7 -/

theorem wrapStep_mk (authorX innerW : ℕ) (px py pw qx qy qw : ℕ)
    (h1 : py ≤ qy) (h2 : py = qy → px + pw ≤ qx ∧ qx + qw ≤ innerW)
    (h3 : py ≠ qy → qx = authorX) :
    wrapStep authorX innerW ⟨px, py, pw⟩ ⟨qx, qy, qw⟩ :=
  ⟨⟨h1, h2⟩, h3⟩

theorem wrapAux_head? (authorX innerW lineH : ℕ) (w : ℕ) (rest : List ℕ) (x y : ℕ) :
    (wrapAux authorX innerW lineH (w :: rest) x y).head? =
      some (if x + w > innerW then ⟨authorX, y + lineH, w⟩ else (⟨x, y, w⟩ : Placement)) := by
  by_cases h : x + w > innerW <;> simp [wrapAux, h]

theorem wrapAux_chain (authorX innerW lineH : ℕ) (hlh : 0 < lineH) (ws : List ℕ) :
    ∀ (x y : ℕ), List.Chain' (wrapStep authorX innerW) (wrapAux authorX innerW lineH ws x y) := by
  induction ws with
  | nil => intro x y; simp [wrapAux]
  | cons w rest ih =>
    intro x y
    by_cases hw : x + w > innerW
    · simp only [wrapAux, if_pos hw]
      rw [List.chain'_cons']
      refine ⟨?_, ih _ _⟩
      intro b hb
      cases rest with
      | nil => simp [wrapAux] at hb
      | cons w2 rest2 =>
        rw [wrapAux_head?] at hb
        simp only [Option.mem_def, Option.some.injEq] at hb
        subst hb
        by_cases hw2 : authorX + w + w2 > innerW
        · rw [if_pos hw2]
          exact wrapStep_mk authorX innerW authorX (y + lineH) w authorX (y + lineH + lineH) w2
            (by omega) (fun hy => absurd hy (by omega)) (fun _ => rfl)
        · rw [if_neg hw2]
          exact wrapStep_mk authorX innerW authorX (y + lineH) w (authorX + w) (y + lineH) w2
            (le_refl _) (fun _ => ⟨le_refl _, by omega⟩) (fun hy => absurd rfl hy)
    · simp only [wrapAux, if_neg hw]
      rw [List.chain'_cons']
      refine ⟨?_, ih _ _⟩
      intro b hb
      cases rest with
      | nil => simp [wrapAux] at hb
      | cons w2 rest2 =>
        rw [wrapAux_head?] at hb
        simp only [Option.mem_def, Option.some.injEq] at hb
        subst hb
        by_cases hw2 : x + w + w2 > innerW
        · rw [if_pos hw2]
          exact wrapStep_mk authorX innerW x y w authorX (y + lineH) w2
            (by omega) (fun hy => absurd hy (by omega)) (fun _ => rfl)
        · rw [if_neg hw2]
          exact wrapStep_mk authorX innerW x y w (x + w) y w2
            (le_refl _) (fun _ => ⟨le_refl _, by omega⟩) (fun hy => absurd rfl hy)

/-- C7.  In the wrap of one message (tokens given by their widths, pen
starting at `runs_x`), any two tokens placed on the same line have nested
extents whose right edge stays within the inner content width — so no two
tokens on one line have combined extent exceeding the inner width, the only
token allowed to overstep being one placed alone at a line start — and a
wrap resets the pen x to `author_x` (the author-column x), not to the
canvas margin. -/
theorem C7_wrap_geometry (authorX innerW lineH runsX : ℕ) (ws : List ℕ) (hlh : 0 < lineH)
    (ps : List Placement) (hps : ps = wrapPlacements authorX innerW lineH runsX ws) :
    (∀ j k, (hj : j < ps.length) → (hk : k < ps.length) → j < k →
      (ps.get ⟨j, hj⟩).y = (ps.get ⟨k, hk⟩).y →
      (ps.get ⟨j, hj⟩).x + (ps.get ⟨j, hj⟩).w ≤ (ps.get ⟨k, hk⟩).x ∧
        (ps.get ⟨k, hk⟩).x + (ps.get ⟨k, hk⟩).w ≤ innerW) ∧
    (∀ k, (hk : k < ps.length) → (hk1 : k + 1 < ps.length) →
      (ps.get ⟨k, hk⟩).y ≠ (ps.get ⟨k + 1, hk1⟩).y →
      (ps.get ⟨k + 1, hk1⟩).x = authorX) := by
  have hchain : List.Chain' (wrapStep authorX innerW) ps := by
    rw [hps]
    exact wrapAux_chain authorX innerW lineH hlh ws runsX 0
  constructor
  · have hpw : List.Pairwise (wrapRel innerW) ps :=
      List.chain'_iff_pairwise.mp (hchain.imp (fun _ _ h => h.1))
    rw [List.pairwise_iff_get] at hpw
    intro j k hj hk hjk hy
    exact (hpw ⟨j, hj⟩ ⟨k, hk⟩ hjk).2 hy
  · have hsteps := List.chain'_iff_get.mp hchain
    intro k hk hk1 hne
    exact (hsteps k (by omega)).2 hne

/-- C7 witness: tokens of widths 3 and 4 after a pen start at 5 fit
together on the first line within inner width 15, with nested extents. -/
theorem C7_witness :
    ((wrapPlacements 2 15 1 5 [3, 4]).get ⟨0, by decide⟩).x +
        ((wrapPlacements 2 15 1 5 [3, 4]).get ⟨0, by decide⟩).w ≤
      ((wrapPlacements 2 15 1 5 [3, 4]).get ⟨1, by decide⟩).x ∧
    ((wrapPlacements 2 15 1 5 [3, 4]).get ⟨1, by decide⟩).x +
        ((wrapPlacements 2 15 1 5 [3, 4]).get ⟨1, by decide⟩).w ≤ 15 :=
  (C7_wrap_geometry 2 15 1 5 [3, 4] (by decide)
      (wrapPlacements 2 15 1 5 [3, 4]) rfl).1 0 1 (by decide) (by decide) (by decide) (by decide)

end ChatVideo
